import Mathlib

/-!
# CalBot task-scheduling engine, shallowly embedded

A shallow embedding of the scheduling core of the CalBot repository
(`backend/app/services/calendar_service.py` and
`backend/app/services/scheduler_service.py`), with theorems settling the
frozen claims about it.

Time encoding: a Python `datetime` is the number of minutes since an epoch
midnight that falls on a Monday (such as 2024-01-01T00:00).  For a datetime
`t`, `t / 1440` is Python's `.date()` as a day index, `t % 1440` the
minute-of-day, and `t / 1440 % 7` is Python's `date.weekday()`
(0 = Monday .. 6 = Sunday).  A "HH:MM" work-hours string is embedded as its
minute-of-day (so "09:00" is 540, "17:00" is 1020).  Timezone handling
(`pytz.timezone` / `tz.localize`) is not modelled: all datetimes live in one
zone, and the wall-clock "now" is an explicit parameter.
-/

namespace CalBot

/-- An event dict as `GoogleCalendarService.get_events` returns it
(calendar_service.py:142-156).  The dict key `"end"` is a Lean keyword and is
embedded as the field `stop`; keys not read by the scheduler (`location`,
`htmlLink`) are dropped. -/
structure CalendarEvent where
  id : String
  title : String
  start : Nat
  stop : Nat
  description : String
deriving DecidableEq, Repr

/-- A free-slot dict as `get_availability` builds it
(calendar_service.py:417-427): key `"end"` is the field `stop`, and
`duration_minutes` is a stored field of the dict — the source hardcodes it to
180 / 240, it is not computed from `stop - start`. -/
structure Slot where
  start : Nat
  stop : Nat
  duration_minutes : Nat
deriving DecidableEq, Repr

/-- What one calendar day contributes inside `get_availability`'s day loop
(calendar_service.py:396-427): a weekday contributes a morning slot
`[work_start, 12:00]` with stored duration 180 and an afternoon slot
`[13:00, work_end]` with stored duration 240 (720 and 780 are the hardcoded
`"12:00"` and `"13:00"` of lines 404 and 410, and 180/240 the hardcoded
`duration_minutes` of lines 420 and 426); a weekend day contributes
nothing. -/
def day_slots (day work_hours_start work_hours_end : Nat) : List Slot :=
  if day % 7 < 5 then
    [⟨day * 1440 + work_hours_start, day * 1440 + 720, 180⟩,
     ⟨day * 1440 + 780, day * 1440 + work_hours_end, 240⟩]
  else []

/-- The `while current_date <= end_date_only` loop of `get_availability`
(calendar_service.py:394-429), one `day_slots` block per day. -/
def availability_loop (current_day end_day work_hours_start work_hours_end : Nat) :
    List Slot :=
  if current_day ≤ end_day then
    day_slots current_day work_hours_start work_hours_end
      ++ availability_loop (current_day + 1) end_day work_hours_start work_hours_end
  else []
termination_by end_day + 1 - current_day

/-- Shallow embedding of `GoogleCalendarService.get_availability`
(calendar_service.py:365-431).  `events` is what `self.get_events(start_date,
end_date)` returned at line 385: the source binds it and never uses it (the
busy-time subtraction is a TODO), so the parameter is ignored here exactly as
the variable is there.  The break configuration is not a parameter: the
source only receives the work-hours strings. -/
def get_availability (events : List CalendarEvent) (start_date end_date : Nat)
    (work_hours_start work_hours_end : Nat) : List Slot :=
  availability_loop (start_date / 1440) (end_date / 1440)
    work_hours_start work_hours_end

/-- Hour of a slot's start, `datetime.fromisoformat(slot["start"]).hour`
(calendar_service.py:464-465). -/
def slot_hour (s : Slot) : Nat := s.start % 1440 / 60

/-- The suitability filter of `find_best_time_slot`
(calendar_service.py:452-455): keep the slots whose **stored**
`duration_minutes` field is at least the request — the filter does not look
at `stop - start`. -/
def suitable_filter (available_slots : List Slot) (duration_minutes : Nat) :
    List Slot :=
  available_slots.filter fun s => decide (duration_minutes ≤ s.duration_minutes)

/-- The preference filter of `find_best_time_slot`
(calendar_service.py:460-475): when a preferred time string is given, keep
the slots whose start hour lies in morning [6,12) / afternoon [12,17) /
evening [17,21); when that keeps nothing (also for any other string) fall
back to the unfiltered list. -/
def preference_filter (suitable_slots : List Slot)
    (preferred_time : Option String) : List Slot :=
  match preferred_time with
  | none => suitable_slots
  | some preferred =>
    let preferred_slots := suitable_slots.filter fun s =>
      (preferred == "morning" && decide (6 ≤ slot_hour s) && decide (slot_hour s < 12))
        || (preferred == "afternoon" && decide (12 ≤ slot_hour s) && decide (slot_hour s < 17))
        || (preferred == "evening" && decide (17 ≤ slot_hour s) && decide (slot_hour s < 21))
    if preferred_slots.isEmpty then suitable_slots else preferred_slots

/-- The priority tie-break of `find_best_time_slot`
(calendar_service.py:477-485): high takes the first surviving slot, low the
last, anything else (medium) the slot at the middle index
`len(suitable_slots) // 2`.  The source indexes an already
nonempty list; the `Option`-valued indexings here return `some` whenever the
list is nonempty. -/
def pick_by_priority (suitable_slots : List Slot) (priority : String) :
    Option Slot :=
  if priority == "high" then suitable_slots.head?
  else if priority == "low" then suitable_slots.getLast?
  else suitable_slots[suitable_slots.length / 2]?

/-- Shallow embedding of `find_best_time_slot` (calendar_service.py:434-485).
`preferred_time` is the raw string of the task dict (`none` for Python
`None`; the empty string, also falsy in Python, selects no slot in the
preference filter and so behaves identically). -/
def find_best_time_slot (available_slots : List Slot) (duration_minutes : Nat)
    (preferred_time : Option String) (priority : String) : Option Slot :=
  let suitable_slots := suitable_filter available_slots duration_minutes
  if suitable_slots.isEmpty then
    none
  else
    pick_by_priority (preference_filter suitable_slots preferred_time) priority

/-- Modelled from the spec: the Conflict Detector itself (`find_conflicts`)
is not among the repository's source files — only its consumer is
(chat.py:461-499 reads the `has_conflict` flag and the `conflicts` list of a
scheduling result).  Per spec §4.4: a proposed interval conflicts with an
existing event iff `proposed_start < existing.end AND existing.start <
proposed_end`, and all overlapping events are returned ordered by their
start time. -/
def find_conflicts (proposed_start proposed_end : Nat)
    (existing_events : List CalendarEvent) : List CalendarEvent :=
  List.insertionSort (fun a b => a.start ≤ b.start)
    (existing_events.filter fun e =>
      decide (proposed_start < e.stop) && decide (e.start < proposed_end))

/-! ## Recurrence expander (scheduler_service.py:281-337) -/

/-- The `day_mapping` dict of `_generate_occurrence_dates`
(scheduler_service.py:316-320), read with `day_mapping.get(day_name, 0)`:
an unrecognised day name defaults to 0 (Monday). -/
def day_mapping (day_name : String) : Nat :=
  if day_name == "monday" then 0
  else if day_name == "tuesday" then 1
  else if day_name == "wednesday" then 2
  else if day_name == "thursday" then 3
  else if day_name == "friday" then 4
  else if day_name == "saturday" then 5
  else if day_name == "sunday" then 6
  else 0

/-- The `weekdays` branch of `_generate_occurrence_dates`
(scheduler_service.py:306-311): advance one calendar day at a time from
`current_date`, keeping only dates whose weekday is 0-4 (Mon-Fri), until
`remaining` dates have been collected. -/
def weekdays_collect (current_date remaining : Nat) : List Nat :=
  if remaining = 0 then []
  else if current_date / 1440 % 7 < 5 then
    current_date :: weekdays_collect (current_date + 1440) (remaining - 1)
  else
    weekdays_collect (current_date + 1440) remaining
termination_by
  remaining * 3 + (if current_date / 1440 % 7 < 5 then 0 else 7 - current_date / 1440 % 7)
decreasing_by
  · have h : (current_date + 1440) / 1440 = current_date / 1440 + 1 :=
      Nat.add_div_right _ (by omega)
    rw [h]
    split <;> omega
  · have h : (current_date + 1440) / 1440 = current_date / 1440 + 1 :=
      Nat.add_div_right _ (by omega)
    rw [h]
    split <;> omega

/-- The `weekly_<dayname>` branch of `_generate_occurrence_dates`
(scheduler_service.py:313-330).  Python computes `days_ahead = target_day -
current_date.weekday()` with int subtraction and adds 7 when the result is
`<= 0`; over Nat that is the branch on `target_day ≤ wd` below
(`target_day - wd ≤ 0` iff `target_day ≤ wd`).  `timedelta(weeks=i)` is
`i * (7 * 1440)` minutes. -/
def weekly_branch (start_date target_day count : Nat) : List Nat :=
  let wd := start_date / 1440 % 7
  let days_ahead := if target_day ≤ wd then target_day + 7 - wd else target_day - wd
  let first_occurrence := start_date + days_ahead * 1440
  (List.range count).map fun i => first_occurrence + i * (7 * 1440)

/-- Python's `str.split` on a single separator character, over the
character list of a string (`String.splitOn` itself is defined by
well-founded recursion and does not evaluate inside the kernel; this
structural version agrees with it on every input relevant here). -/
def split_on_char (c : Char) : List Char → List (List Char)
  | [] => [[]]
  | x :: xs =>
    if x = c then [] :: split_on_char c xs
    else
      match split_on_char c xs with
      | [] => [[x]]
      | g :: gs => (x :: g) :: gs

/-- Shallow embedding of `TaskScheduler._generate_occurrence_dates`
(scheduler_service.py:281-337): `daily` and any unrecognised pattern yield
`start_date + i` days for `i < count`; `weekdays` collects the next `count`
Monday-Friday dates (the starting date included when it is one); a pattern
starting `weekly_` (`pattern.startswith("weekly_")`, embedded as a prefix
test on the character list) takes the segment after the first `_`
(`pattern.split("_")[1]`) through `day_mapping`. -/
def generate_occurrence_dates (start_date : Nat) (pattern : String) (count : Nat) :
    List Nat :=
  if pattern == "daily" then
    (List.range count).map fun i => start_date + i * 1440
  else if pattern == "weekdays" then
    weekdays_collect start_date count
  else if pattern.data.take 7 = "weekly_".data then
    let day_name := String.mk ((split_on_char '_' pattern.data).getD 1 [])
    weekly_branch start_date (day_mapping day_name) count
  else
    (List.range count).map fun i => start_date + i * 1440

/-! ## Scheduling orchestrator (scheduler_service.py:13-337) -/

/-- The `user_preferences` dict (scheduler_service.py:44-50, chat.py:449-455).
The "HH:MM" strings are embedded as minutes-of-day.  `break_start` /
`break_end` are `Option` so a policy with no configured break is expressible;
the scheduler never reads either field. -/
structure Preferences where
  work_hours_start : Nat
  work_hours_end : Nat
  break_start : Option Nat
  break_end : Option Nat
  timezone : String
deriving DecidableEq, Repr

/-- A time-valued task field (`preferred_time` / `deadline`), a Python string,
classified by how the parse attempts of `_schedule_single_task` read it:
`iso t` is a string `datetime.fromisoformat` accepts (line 81 / 87), with `t`
the datetime it denotes; `clock hour minute is_pm is_am` is a bare clock
string the parser of lines 91-107 accepts ("13:00", "1pm", "1:30pm"), with
`hour`/`minute` the parsed numbers before am/pm conversion and the flags the
`'pm' in`/`'am' in` tests of lines 95-96; `word s` is any other string (both
parses raise `ValueError` on it — e.g. "morning"). -/
inductive TimeInput where
  | iso (t : Nat)
  | clock (hour minute : Nat) (is_pm is_am : Bool)
  | word (s : String)
deriving DecidableEq, Repr

/-- The 24-hour conversion of scheduler_service.py:110-113: pm adds 12 to an
hour below 12, am maps hour 12 to 0. -/
def clock_hour_24 (hour : Nat) (is_pm is_am : Bool) : Nat :=
  if is_pm && decide (hour < 12) then hour + 12
  else if is_am && hour == 12 then 0
  else hour

/-- The `task_data` dict with the defaults `_schedule_single_task` and
`_schedule_recurring_task` read it with (`task_data.get(...)`,
scheduler_service.py:69-73 and 209-213). -/
structure TaskData where
  title : String := "Untitled Task"
  duration_minutes : Nat := 60
  priority : String := "medium"
  preferred_time : Option TimeInput := none
  deadline : Option TimeInput := none
  recurring : Bool := false
  recurrence_pattern : String := "daily"
  occurrences : Nat := 1
deriving DecidableEq, Repr

/-- An event as `create_event` echoes it back (calendar_service.py:184-229):
the fields the scheduler's result carries that are determined by its inputs
(the mock id is minted from the wall clock and is not modelled). -/
structure CreatedEvent where
  title : String
  start : Nat
  stop : Nat
  description : String
deriving DecidableEq, Repr

/-- Result dict of `_schedule_single_task`: `scheduled e` is
`{"success": True, "event": e, "message": ...}` (lines 132-136 and 195-199),
`noSlot alts` is `{"success": False, "error": "No available time slots
found", "alternatives": alts}` (lines 176-181).  No other shape is returned:
in particular the dict never carries `has_conflict`, `conflicts` or
`proposed_event` keys. -/
inductive SingleResult where
  | scheduled (event : CreatedEvent)
  | noSlot (alternatives : List Slot)
deriving DecidableEq, Repr

/-- Start of the exact-time path (scheduler_service.py:84-120): the start
datetime obtained from `preferred_time` once the deadline parsed as the ISO
datetime `end_time`.  An ISO `preferred_time` is used as is; a clock string
is converted to 24-hour form and combined with the deadline's date (lines
116-119) — `datetime.min.time().replace(hour=..., minute=...)` raises
`ValueError` past 23:59, which the outer `except` turns into a fall-through,
hence the bounds check; any other string makes one of the parses raise, also
falling through (`none`). -/
def exact_start_time (end_time : Nat) : TimeInput → Option Nat
  | .iso t => some t
  | .clock hour minute is_pm is_am =>
    let h := clock_hour_24 hour is_pm is_am
    if decide (h ≤ 23) && decide (minute ≤ 59) then
      some (end_time / 1440 * 1440 + h * 60 + minute)
    else none
  | .word _ => none

/-- The exact `[start, end]` interval of the exact-time path when both
anchors parse (scheduler_service.py:78-123): `deadline` must itself be a full
ISO timestamp; `preferred_time` an ISO timestamp or a clock time. -/
def exact_interval (preferred_time deadline : Option TimeInput) :
    Option (Nat × Nat) :=
  match preferred_time, deadline with
  | some pt, some dl =>
    match dl with
    | .iso end_time =>
      match exact_start_time end_time pt with
      | some start_time => some (start_time, end_time)
      | none => none
    | _ => none
  | _, _ => none

/-- String the scheduler hands `find_best_time_slot` for a `preferred_time`
field (scheduler_service.py:169-174 pass the raw task string through).  A
time-of-day word is passed as itself; an ISO or clock string is rendered to a
stand-in that, like the original, is none of "morning"/"afternoon"/"evening",
which is all `find_best_time_slot` compares it against. -/
def preferred_time_string : Option TimeInput → Option String
  | none => none
  | some (.word s) => some s
  | some (.iso t) => some (toString t)
  | some (.clock hour minute _ _) => some (toString hour ++ ":" ++ toString minute)

/-- Shallow embedding of `TaskScheduler._schedule_single_task`
(scheduler_service.py:61-199).  `now` is `datetime.now(tz)` (line 148) and
`events` what `self.calendar.get_events` returns for the search window
(threaded into `get_availability`, which ignores it — see there).  Exact-time
path: when `preferred_time` and `deadline` both parse, the event is created
at that interval at once (lines 123-136) — no conflict check and no other
gate stands before `create_event`.  Search path: the window is `[now,
deadline]`, or `[now, now + 7 days]` when the deadline is absent or not ISO
(lines 144-158); availability and best slot are computed and the event
created at `[slot.start, slot.start + duration]` (lines 183-199), again with
no conflict check. -/
def schedule_single_task (now : Nat) (events : List CalendarEvent)
    (task : TaskData) (prefs : Preferences) : SingleResult :=
  match exact_interval task.preferred_time task.deadline with
  | some (start_time, end_time) =>
    .scheduled
      { title := task.title, start := start_time, stop := end_time,
        description := "Priority: " ++ task.priority ++ "\nScheduled by CalBot" }
  | none =>
    let start_date := now
    let end_date :=
      match task.deadline with
      | some (.iso t) => t
      | _ => now + 7 * 1440
    let available_slots := get_availability events start_date end_date
      prefs.work_hours_start prefs.work_hours_end
    match find_best_time_slot available_slots task.duration_minutes
        (preferred_time_string task.preferred_time) task.priority with
    | none => .noSlot (available_slots.take 3)
    | some best_slot =>
      let start_time := best_slot.start
      let end_time := start_time + task.duration_minutes
      .scheduled
        { title := task.title, start := start_time, stop := end_time,
          description := "Priority: " ++ task.priority ++ "\nScheduled by CalBot" }

/-- One iteration of the occurrence loop of `_schedule_recurring_task`
(scheduler_service.py:229-266): availability for the occurrence's day window
`[date at work_hours_start, date at work_hours_end]`, then
`find_best_time_slot` called with priority hardcoded to the literal
`"medium"` (line 252) — the task's own priority is not consulted — and on a
hit the event `[slot.start, slot.start + duration]` is created. -/
def schedule_occurrence (events : List CalendarEvent) (prefs : Preferences)
    (duration : Nat) (preferred_time : Option TimeInput)
    (title pattern : String) (occurrence_date : Nat) : Option CreatedEvent :=
  let day_start := occurrence_date / 1440 * 1440 + prefs.work_hours_start
  let day_end := occurrence_date / 1440 * 1440 + prefs.work_hours_end
  let available_slots := get_availability events day_start day_end
    prefs.work_hours_start prefs.work_hours_end
  match find_best_time_slot available_slots duration
      (preferred_time_string preferred_time) "medium" with
  | none => none
  | some best_slot =>
    some
      { title := title, start := best_slot.start,
        stop := best_slot.start + duration,
        description := "Recurring task (" ++ pattern ++ ")\nScheduled by CalBot" }

/-- Result dict of `_schedule_recurring_task`: `scheduledMany evs` is
`{"success": True, "events": evs, "message": ...}` (lines 275-279) and
`recurrenceExhausted attempted` is `{"success": False, "error": "Could not
schedule any occurrences", "attempted": attempted}` (lines 268-273) — the
spec's `Failed(RecurrenceExhausted)`. -/
inductive RecurringResult where
  | scheduledMany (events : List CreatedEvent)
  | recurrenceExhausted (attempted : Nat)
deriving DecidableEq, Repr

/-- The loop body of `_schedule_recurring_task`'s occurrence loop
(scheduler_service.py:255-266): when the occurrence obtains an event, append
it to `events_created`, else keep the accumulator. -/
def append_step {A B : Type} (f : A → Option B) (acc : List B) (a : A) :
    List B :=
  match f a with
  | some b => acc ++ [b]
  | none => acc

/-- Shallow embedding of `TaskScheduler._schedule_recurring_task`
(scheduler_service.py:201-279): the task fields are read once (lines
209-213; `priority` is never read), the occurrence dates generated from
`now` (= `datetime.now(tz)`, line 219), and the loop of lines 229-266
appends one created event per occurrence that found a slot. -/
def schedule_recurring_task (now : Nat) (events : List CalendarEvent)
    (task : TaskData) (prefs : Preferences) : RecurringResult :=
  let title := task.title
  let duration := task.duration_minutes
  let pattern := task.recurrence_pattern
  let occurrences := task.occurrences
  let preferred_time := task.preferred_time
  let start_date := now
  let occurrence_dates := generate_occurrence_dates start_date pattern occurrences
  let events_created := occurrence_dates.foldl
    (append_step (schedule_occurrence events prefs duration preferred_time
      title pattern)) []
  if events_created.isEmpty then .recurrenceExhausted occurrences
  else .scheduledMany events_created

/-- The preference handling of `TaskScheduler.schedule_task`
(scheduler_service.py:42-53), returning the `user_preferences` record as the
caller sees it after the call: with no preferences supplied a default dict
is built (work 09:00-17:00, break 12:00-13:00, timezone from `user_timezone`
or "UTC"); with preferences supplied and a `user_timezone` given, the
caller's own dict has its "timezone" entry overwritten in place (line 53);
`none` stands for Python's falsy `None` (an empty timezone string, also
falsy, likewise skips the override). -/
def schedule_task_preferences (user_preferences : Option Preferences)
    (user_timezone : Option String) : Preferences :=
  match user_preferences with
  | none =>
    { work_hours_start := 540, work_hours_end := 1020,
      break_start := some 720, break_end := some 780,
      timezone := user_timezone.getD "UTC" }
  | some p =>
    match user_timezone with
    | some tz => { p with timezone := tz }
    | none => p

/-- Result of `TaskScheduler.schedule_task`: the single-task dict or the
recurring dict, depending on `task_data.get("recurring")`. -/
inductive ScheduleResult where
  | single (r : SingleResult)
  | recurring (r : RecurringResult)
deriving DecidableEq, Repr

/-- Shallow embedding of `TaskScheduler.schedule_task`
(scheduler_service.py:25-59): resolve the preferences (mutating the caller's
record, see `schedule_task_preferences`) and dispatch on `recurring`. -/
def schedule_task (now : Nat) (events : List CalendarEvent) (task : TaskData)
    (user_preferences : Option Preferences) (user_timezone : Option String) :
    ScheduleResult :=
  let prefs := schedule_task_preferences user_preferences user_timezone
  if task.recurring then
    .recurring (schedule_recurring_task now events task prefs)
  else
    .single (schedule_single_task now events task prefs)

/-! ## Helper lemmas -/

theorem availability_loop_eq (current_day end_day whs whe : Nat) :
    availability_loop current_day end_day whs whe
      = ((List.range (end_day + 1 - current_day)).map fun i => current_day + i).flatMap
          fun d => day_slots d whs whe := by
  induction current_day, end_day, whs, whe using availability_loop.induct with
  | case1 current_day end_day whs whe h ih =>
    rw [availability_loop]
    rw [if_pos h, ih]
    have hr : end_day + 1 - current_day = (end_day - current_day) + 1 := by omega
    rw [hr, List.range_succ_eq_map]
    have hr2 : end_day + 1 - (current_day + 1) = end_day - current_day := by omega
    rw [hr2]
    simp only [List.map_cons, List.map_map, List.flatMap_cons, Nat.add_zero]
    congr 2
    apply List.map_congr_left
    intro a _
    simp only [Function.comp_apply]
    omega
  | case2 current_day end_day whs whe h =>
    rw [availability_loop]
    rw [if_neg h]
    have hr : end_day + 1 - current_day = 0 := by omega
    rw [hr]
    simp

theorem day_slots_eq_nil_iff (d whs whe : Nat) :
    day_slots d whs whe = [] ↔ 5 ≤ d % 7 := by
  unfold day_slots
  split <;> simp <;> omega

theorem weekdays_collect_length (current_date remaining : Nat) :
    (weekdays_collect current_date remaining).length = remaining := by
  induction current_date, remaining using weekdays_collect.induct with
  | case1 current_date => simp [weekdays_collect]
  | case2 current_date remaining h h5 ih =>
    rw [weekdays_collect, if_neg h, if_pos h5]
    simp only [List.length_cons, ih]
    omega
  | case3 current_date remaining h h5 ih =>
    rw [weekdays_collect, if_neg h, if_neg h5]
    exact ih

theorem weekdays_collect_mem (current_date remaining : Nat) :
    ∀ d ∈ weekdays_collect current_date remaining,
      current_date ≤ d ∧ d / 1440 % 7 < 5 := by
  induction current_date, remaining using weekdays_collect.induct with
  | case1 current_date => simp [weekdays_collect]
  | case2 current_date remaining h h5 ih =>
    rw [weekdays_collect, if_neg h, if_pos h5]
    intro d hd
    rcases List.mem_cons.mp hd with rfl | hd
    · exact ⟨le_rfl, h5⟩
    · exact ⟨by have := (ih d hd).1; omega, (ih d hd).2⟩
  | case3 current_date remaining h h5 ih =>
    rw [weekdays_collect, if_neg h, if_neg h5]
    intro d hd
    exact ⟨by have := (ih d hd).1; omega, (ih d hd).2⟩

theorem weekdays_collect_pairwise (current_date remaining : Nat) :
    (weekdays_collect current_date remaining).Pairwise (· < ·) := by
  induction current_date, remaining using weekdays_collect.induct with
  | case1 current_date => simp [weekdays_collect]
  | case2 current_date remaining h h5 ih =>
    rw [weekdays_collect, if_neg h, if_pos h5]
    refine List.Pairwise.cons ?_ ih
    intro d hd
    have := (weekdays_collect_mem _ _ d hd).1
    omega
  | case3 current_date remaining h h5 ih =>
    rw [weekdays_collect, if_neg h, if_neg h5]
    exact ih

theorem pairwise_lt_map_range (n : Nat) (f : Nat → Nat)
    (hf : ∀ a b, a < b → f a < f b) :
    ((List.range n).map f).Pairwise (· < ·) :=
  (List.pairwise_lt_range n).map f hf

instance : IsTotal CalendarEvent (fun a b => a.start ≤ b.start) :=
  ⟨fun a b => Nat.le_total a.start b.start⟩

instance : IsTrans CalendarEvent (fun a b => a.start ≤ b.start) :=
  ⟨fun _ _ _ hab hbc => Nat.le_trans hab hbc⟩

theorem preference_filter_subset (suitable_slots : List Slot)
    (preferred_time : Option String) (s : Slot)
    (h : s ∈ preference_filter suitable_slots preferred_time) :
    s ∈ suitable_slots := by
  unfold preference_filter at h
  match preferred_time with
  | none => exact h
  | some preferred =>
    simp only at h
    split at h
    · exact h
    · exact List.mem_of_mem_filter h

theorem preference_filter_ne_nil (suitable_slots : List Slot)
    (preferred_time : Option String) (h : suitable_slots ≠ []) :
    preference_filter suitable_slots preferred_time ≠ [] := by
  unfold preference_filter
  match preferred_time with
  | none => exact h
  | some preferred =>
    simp only
    split
    · exact h
    · next hne => simpa [List.isEmpty_iff] using hne

theorem pick_by_priority_mem (suitable_slots : List Slot) (priority : String)
    (s : Slot) (h : pick_by_priority suitable_slots priority = some s) :
    s ∈ suitable_slots := by
  unfold pick_by_priority at h
  split at h
  · exact List.mem_of_mem_head? h
  · split at h
    · exact List.mem_of_getLast?_eq_some h
    · exact List.getElem?_mem h

theorem pick_by_priority_ne_none (suitable_slots : List Slot) (priority : String)
    (h : suitable_slots ≠ []) :
    pick_by_priority suitable_slots priority ≠ none := by
  unfold pick_by_priority
  have hlt : suitable_slots.length / 2 < suitable_slots.length := by
    have := List.length_pos.mpr h
    omega
  split
  · simpa [List.head?_eq_none_iff] using h
  · split
    · simpa [List.getLast?_eq_none_iff] using h
    · simp [List.getElem?_eq_getElem hlt]

theorem weekly_branch_spec (start_date target_day count : Nat)
    (htarget : target_day ≤ 6) :
    ∃ days_ahead, 1 ≤ days_ahead ∧ days_ahead ≤ 7
      ∧ weekly_branch start_date target_day count
          = ((List.range count).map
              fun i => start_date + days_ahead * 1440 + i * (7 * 1440))
      ∧ (start_date + days_ahead * 1440) / 1440 % 7 = target_day
      ∧ (∀ e, 1 ≤ e → e < days_ahead →
          (start_date + e * 1440) / 1440 % 7 ≠ target_day)
      ∧ (start_date / 1440 % 7 = target_day → days_ahead = 7) := by
  have hdiv : ∀ e : Nat, (start_date + e * 1440) / 1440 = start_date / 1440 + e :=
    fun e => Nat.add_mul_div_right start_date e (by omega)
  unfold weekly_branch
  refine ⟨if target_day ≤ start_date / 1440 % 7
    then target_day + 7 - start_date / 1440 % 7
    else target_day - start_date / 1440 % 7, ?_, ?_, rfl, ?_, ?_, ?_⟩
  · have := Nat.mod_lt (start_date / 1440) (y := 7) (by omega)
    split <;> omega
  · have := Nat.mod_lt (start_date / 1440) (y := 7) (by omega)
    split <;> omega
  · rw [hdiv]
    have := Nat.mod_lt (start_date / 1440) (y := 7) (by omega)
    split <;> omega
  · intro e he1 he2
    rw [hdiv]
    have := Nat.mod_lt (start_date / 1440) (y := 7) (by omega)
    split at he2 <;> omega
  · intro hsame
    split <;> omega

theorem append_step_none {A B : Type} (f : A → Option B) (acc : List B)
    (a : A) (h : f a = none) : append_step f acc a = acc := by
  unfold append_step
  rw [h]

theorem append_step_some {A B : Type} (f : A → Option B) (acc : List B)
    (a : A) (b : B) (h : f a = some b) : append_step f acc a = acc ++ [b] := by
  unfold append_step
  rw [h]

theorem foldl_append_eq_filterMap {A B : Type} (f : A → Option B)
    (l : List A) (acc : List B) :
    l.foldl (append_step f) acc = acc ++ l.filterMap f := by
  induction l generalizing acc with
  | nil => simp
  | cons a l ih =>
    cases hfa : f a with
    | none =>
      rw [List.foldl_cons, append_step_none f acc a hfa, ih,
        List.filterMap_cons, hfa]
    | some b =>
      rw [List.foldl_cons, append_step_some f acc a b hfa, ih,
        List.filterMap_cons, hfa, List.append_assoc, List.singleton_append]

/-! ## Claim theorems -/

/-- C2: for every proposed interval and list of existing events,
`find_conflicts` reports an event as conflicting iff `proposed_start <
existing.end` and `existing.start < proposed_end`; an event ending at or
before the proposal's start (touching endpoints included) is never reported;
and the returned conflicting events are ordered by their start time. -/
theorem find_conflicts_halfopen_ordered (proposed_start proposed_end : Nat)
    (existing_events : List CalendarEvent) :
    (∀ e, e ∈ find_conflicts proposed_start proposed_end existing_events ↔
      e ∈ existing_events ∧ proposed_start < e.stop ∧ e.start < proposed_end)
    ∧ (∀ e ∈ existing_events, e.stop ≤ proposed_start →
        e ∉ find_conflicts proposed_start proposed_end existing_events)
    ∧ (find_conflicts proposed_start proposed_end existing_events).Sorted
        fun a b => a.start ≤ b.start := by
  have hmem : ∀ e, e ∈ find_conflicts proposed_start proposed_end existing_events ↔
      e ∈ existing_events ∧ proposed_start < e.stop ∧ e.start < proposed_end := by
    intro e
    unfold find_conflicts
    rw [List.mem_insertionSort, List.mem_filter]
    simp
  refine ⟨hmem, ?_, ?_⟩
  · intro e _ hstop hin
    have := ((hmem e).mp hin).2.1
    omega
  · exact List.sorted_insertionSort _ _

/-- C3 counterexample: with a work policy whose configured break is
15:00-15:30, the availability for one Monday still splits at the hardcoded
12:00/13:00 — the morning interval ends at minute 720, not at the policy's
`break_start` 900 — and with no break configured at all the day still yields
two intervals, not the claimed single `[work_start, work_end]` interval. -/
theorem availability_ignores_configured_break :
    (Preferences.mk 540 1020 (some 900) (some 930) "UTC").break_start = some 900
    ∧ get_availability [] 0 0
        (Preferences.mk 540 1020 (some 900) (some 930) "UTC").work_hours_start
        (Preferences.mk 540 1020 (some 900) (some 930) "UTC").work_hours_end
      = [⟨540, 720, 180⟩, ⟨780, 1020, 240⟩]
    ∧ (720 : Nat) ≠ 900
    ∧ (get_availability [] 0 0
        (Preferences.mk 540 1020 none none "UTC").work_hours_start
        (Preferences.mk 540 1020 none none "UTC").work_hours_end).length ≠ 1 := by
  have h : get_availability [] 0 0 540 1020 = [⟨540, 720, 180⟩, ⟨780, 1020, 240⟩] := by
    unfold get_availability
    rw [availability_loop_eq]
    rfl
  exact ⟨rfl, h, by decide, by rw [show get_availability [] 0 0 540 1020 =
    get_availability [] 0 0 (Preferences.mk 540 1020 none none "UTC").work_hours_start
      (Preferences.mk 540 1020 none none "UTC").work_hours_end from rfl] at h; rw [h]; decide⟩

/-- C3 amended (the availability calculator splits every weekday at the fixed,
hardcoded 12:00-13:00 lunch break, never at the policy's configured break —
which is not even passed to it — and never emits an unsplit work window):
the full output is one `day_slots` block per calendar day of the range, and
`day_slots` produces `[work_start, 12:00]` and `[13:00, work_end]` on a
weekday and nothing on a weekend. -/
theorem availability_splits_at_fixed_lunch (events : List CalendarEvent)
    (start_date end_date work_hours_start work_hours_end : Nat) :
    get_availability events start_date end_date work_hours_start work_hours_end
      = ((List.range (end_date / 1440 + 1 - start_date / 1440)).map
            fun i => start_date / 1440 + i).flatMap
          fun d => day_slots d work_hours_start work_hours_end :=
  availability_loop_eq _ _ _ _

/-- C4 counterexample: with work hours 11:00-17:00, `get_availability` emits a
morning slot `[11:00, 12:00]` of real span 60 minutes whose stored
`duration_minutes` is still the hardcoded 180, and `find_best_time_slot`
returns it for a 120-minute request: the returned slot's actual span
`stop - start` is below the requested duration. -/
theorem selected_slot_shorter_than_duration :
    find_best_time_slot (get_availability [] 0 0 660 1020) 120 none "high"
      = some ⟨660, 720, 180⟩
    ∧ (720 : Nat) - 660 < 120 := by
  have h : get_availability [] 0 0 660 1020 = [⟨660, 720, 180⟩, ⟨780, 1020, 240⟩] := by
    unfold get_availability
    rw [availability_loop_eq]
    rfl
  rw [h]
  exact ⟨rfl, by decide⟩

/-- C4 amended (the slot selector guarantees the **stored**
`duration_minutes` field of the returned slot is at least the requested
duration — not the actual span `stop - start`, which can be smaller because
`get_availability` hardcodes the field to 180/240 — and returns `none` only
when no slot's stored field suffices): every returned slot passes the
`duration_minutes`-field filter, and `none` means every slot's field is below
the request. -/
theorem find_best_slot_duration_field (available_slots : List Slot)
    (duration_minutes : Nat) (preferred_time : Option String)
    (priority : String) :
    (∀ s, find_best_time_slot available_slots duration_minutes preferred_time
        priority = some s → duration_minutes ≤ s.duration_minutes)
    ∧ (find_best_time_slot available_slots duration_minutes preferred_time
        priority = none →
      ∀ s ∈ available_slots, s.duration_minutes < duration_minutes) := by
  constructor
  · intro s hs
    unfold find_best_time_slot at hs
    dsimp only at hs
    split at hs
    · exact absurd hs (by simp)
    · have hmem := preference_filter_subset _ _ _ (pick_by_priority_mem _ _ _ hs)
      have := List.of_mem_filter hmem
      simpa using this
  · intro hnone s hmem
    unfold find_best_time_slot at hnone
    dsimp only at hnone
    split at hnone
    · next hemp =>
      rw [List.isEmpty_iff] at hemp
      by_contra hle
      have : s ∈ suitable_filter available_slots duration_minutes := by
        unfold suitable_filter
        exact List.mem_filter.mpr ⟨hmem, by simpa using Nat.le_of_not_lt hle⟩
      rw [hemp] at this
      exact absurd this (List.not_mem_nil s)
    · next hemp =>
      rw [Bool.not_eq_true, List.isEmpty_eq_false] at hemp
      exact absurd hnone
        (pick_by_priority_ne_none _ _ (preference_filter_ne_nil _ _ hemp))

/-- C5: for every start date, pattern string and count of at least one, the
recurrence expander returns exactly `count` dates, strictly increasing, and
for the `weekdays` pattern none of them falls on Saturday or Sunday. -/
theorem generate_dates_count_strict_mono (start_date : Nat) (pattern : String)
    (count : Nat) (hcount : 1 ≤ count) :
    (generate_occurrence_dates start_date pattern count).length = count
    ∧ (generate_occurrence_dates start_date pattern count).Pairwise (· < ·)
    ∧ (pattern = "weekdays" →
        ∀ d ∈ generate_occurrence_dates start_date pattern count,
          d / 1440 % 7 < 5) := by
  unfold generate_occurrence_dates
  split
  · next hdaily =>
    rw [beq_iff_eq] at hdaily
    refine ⟨by simp, pairwise_lt_map_range _ _ (fun a b hab => by omega), ?_⟩
    intro hweek
    subst hdaily
    exact absurd hweek (by decide)
  · split
    · next hw =>
      refine ⟨weekdays_collect_length _ _, weekdays_collect_pairwise _ _, ?_⟩
      intro _ d hd
      exact (weekdays_collect_mem _ _ d hd).2
    · next hnw =>
      split
      · refine ⟨by simp [weekly_branch], ?_, ?_⟩
        · unfold weekly_branch
          exact pairwise_lt_map_range _ _ (fun a b hab => by omega)
        · intro hweek
          subst hweek
          simp at hnw
      · refine ⟨by simp, pairwise_lt_map_range _ _ (fun a b hab => by omega), ?_⟩
        intro hweek
        subst hweek
        simp at hnw

/-- C5 witness: the theorem applied at start date 0 (a Monday midnight),
pattern `weekdays` and count 4. -/
theorem generate_dates_count_strict_mono_witness :
    (generate_occurrence_dates 0 "weekdays" 4).length = 4
    ∧ (generate_occurrence_dates 0 "weekdays" 4).Pairwise (· < ·)
    ∧ ("weekdays" = "weekdays" →
        ∀ d ∈ generate_occurrence_dates 0 "weekdays" 4, d / 1440 % 7 < 5) :=
  generate_dates_count_strict_mono 0 "weekdays" 4 (by decide)

/-- C6: for a `weekly_<dayname>` pattern with a recognised day name, the
first occurrence lies `days_ahead ∈ [1, 7]` days after the start date, lands
on the target weekday, is the *next* calendar day with that weekday strictly
after the start date (no earlier strictly-later day has it), is one full
week later when the start date itself falls on the target weekday, and each
subsequent occurrence is exactly 7 days (10080 minutes) after the previous
one. -/
theorem weekly_pattern_next_occurrence (name : String)
    (hname : name ∈ ["monday", "tuesday", "wednesday", "thursday",
      "friday", "saturday", "sunday"])
    (start_date count : Nat) :
    ∃ days_ahead, 1 ≤ days_ahead ∧ days_ahead ≤ 7
      ∧ generate_occurrence_dates start_date ("weekly_" ++ name) count
          = ((List.range count).map
              fun i => start_date + days_ahead * 1440 + i * (7 * 1440))
      ∧ (start_date + days_ahead * 1440) / 1440 % 7 = day_mapping name
      ∧ (∀ e, 1 ≤ e → e < days_ahead →
          (start_date + e * 1440) / 1440 % 7 ≠ day_mapping name)
      ∧ (start_date / 1440 % 7 = day_mapping name → days_ahead = 7) := by
  fin_cases hname <;>
    exact weekly_branch_spec start_date _ count (by decide)

/-- C6 witness: the theorem applied at name `monday`, start date 0 (itself a
Monday) and count 3: the first occurrence is a full week later. -/
theorem weekly_pattern_next_occurrence_witness :
    ∃ days_ahead, 1 ≤ days_ahead ∧ days_ahead ≤ 7
      ∧ generate_occurrence_dates 0 ("weekly_" ++ "monday") 3
          = ((List.range 3).map
              fun i => 0 + days_ahead * 1440 + i * (7 * 1440))
      ∧ (0 + days_ahead * 1440) / 1440 % 7 = day_mapping "monday"
      ∧ (∀ e, 1 ≤ e → e < days_ahead →
          (0 + e * 1440) / 1440 % 7 ≠ day_mapping "monday")
      ∧ (0 / 1440 % 7 = day_mapping "monday" → days_ahead = 7) :=
  weekly_pattern_next_occurrence "monday" (by decide) 0 3

/-- C8 counterexample: a range with `range_start > range_end` inside one
Monday is NOT empty (both claimed conjuncts fail): `get_availability` walks
`start.date() .. end.date()`, so a reversed range within a single weekday
still returns that day's two slots, and so does a zero-length range. -/
theorem availability_reversed_and_zero_length_nonempty :
    (900 : Nat) > 600
    ∧ get_availability [] 900 600 540 1020 ≠ []
    ∧ get_availability [] 600 600 540 1020 ≠ [] := by
  have h : get_availability [] 900 600 540 1020 = [⟨540, 720, 180⟩, ⟨780, 1020, 240⟩] := by
    unfold get_availability
    rw [availability_loop_eq]
    rfl
  have h2 : get_availability [] 600 600 540 1020 = [⟨540, 720, 180⟩, ⟨780, 1020, 240⟩] := by
    unfold get_availability
    rw [availability_loop_eq]
    rfl
  refine ⟨by decide, by rw [h]; decide, by rw [h2]; decide⟩

/-- C8 amended (the availability calculator returns an empty sequence iff
every calendar day from `range_start.date()` through `range_end.date()` is a
weekend — vacuously so when `range_start.date() > range_end.date()`; a
reversed or zero-length range whose dates coincide on a weekday returns that
day's slots instead). -/
theorem availability_empty_iff_all_weekend (events : List CalendarEvent)
    (start_date end_date work_hours_start work_hours_end : Nat) :
    get_availability events start_date end_date work_hours_start work_hours_end
        = []
      ↔ ∀ d, start_date / 1440 ≤ d → d ≤ end_date / 1440 → 5 ≤ d % 7 := by
  unfold get_availability
  rw [availability_loop_eq, List.flatMap_eq_nil_iff]
  constructor
  · intro h d h1 h2
    have hd : d ∈ (List.range (end_date / 1440 + 1 - start_date / 1440)).map
        fun i => start_date / 1440 + i := by
      rw [List.mem_map]
      exact ⟨d - start_date / 1440, by rw [List.mem_range]; omega, by omega⟩
    exact (day_slots_eq_nil_iff _ _ _).mp (h _ hd)
  · intro h x hx
    rw [List.mem_map] at hx
    obtain ⟨i, hi, rfl⟩ := hx
    rw [List.mem_range] at hi
    exact (day_slots_eq_nil_iff _ _ _).mpr (h _ (by omega) (by omega))

/-- C9 counterexample: `schedule_task` overwrites the timezone field of the
caller's own preferences dict in place (scheduler_service.py:51-53): after a
call with `user_timezone = "America/New_York"`, the record supplied with
timezone "UTC" is no longer equal to its value at entry. -/
theorem schedule_task_mutates_timezone :
    schedule_task_preferences
        (some (Preferences.mk 540 1020 (some 720) (some 780) "UTC"))
        (some "America/New_York")
      ≠ Preferences.mk 540 1020 (some 720) (some 780) "UTC" := by
  decide

/-- C9 amended (every field of the caller's work-policy record except
`timezone` is left unchanged by `schedule_task`; the `timezone` field is
overwritten with the `user_timezone` argument when one is supplied, and the
whole record is returned untouched when none is). -/
theorem schedule_task_preserves_other_fields (p : Preferences)
    (user_timezone : Option String) :
    (schedule_task_preferences (some p) user_timezone).work_hours_start
        = p.work_hours_start
    ∧ (schedule_task_preferences (some p) user_timezone).work_hours_end
        = p.work_hours_end
    ∧ (schedule_task_preferences (some p) user_timezone).break_start
        = p.break_start
    ∧ (schedule_task_preferences (some p) user_timezone).break_end
        = p.break_end
    ∧ (user_timezone = none → schedule_task_preferences (some p) user_timezone = p)
    ∧ ∀ tz, user_timezone = some tz →
        (schedule_task_preferences (some p) user_timezone).timezone = tz := by
  cases user_timezone <;> simp [schedule_task_preferences]

theorem schedule_recurring_task_eq (now : Nat) (events : List CalendarEvent)
    (task : TaskData) (prefs : Preferences) :
    schedule_recurring_task now events task prefs
      = (if ((generate_occurrence_dates now task.recurrence_pattern
              task.occurrences).filterMap
            (schedule_occurrence events prefs task.duration_minutes
              task.preferred_time task.title task.recurrence_pattern)).isEmpty
        then .recurrenceExhausted task.occurrences
        else
          .scheduledMany
            ((generate_occurrence_dates now task.recurrence_pattern
                task.occurrences).filterMap
              (schedule_occurrence events prefs task.duration_minutes
                task.preferred_time task.title task.recurrence_pattern))) := by
  unfold schedule_recurring_task
  dsimp only
  rw [foldl_append_eq_filterMap (schedule_occurrence events prefs
    task.duration_minutes task.preferred_time task.title
    task.recurrence_pattern)]
  simp

/-- C7: for every recurring task, the result is the `RecurrenceExhausted`
failure exactly when no occurrence date obtains a slot, and as soon as at
least one does, the result is the success variant carrying exactly the
events of the successfully scheduled occurrences (in date order) — a partial
shortfall is still reported as success. -/
theorem recurring_partial_success_or_exhausted (now : Nat)
    (events : List CalendarEvent) (task : TaskData) (prefs : Preferences) :
    (schedule_recurring_task now events task prefs
        = .recurrenceExhausted task.occurrences
      ↔ ∀ d ∈ generate_occurrence_dates now task.recurrence_pattern
            task.occurrences,
          schedule_occurrence events prefs task.duration_minutes
            task.preferred_time task.title task.recurrence_pattern d = none)
    ∧ ((∃ d ∈ generate_occurrence_dates now task.recurrence_pattern
            task.occurrences,
          schedule_occurrence events prefs task.duration_minutes
            task.preferred_time task.title task.recurrence_pattern d ≠ none) →
        schedule_recurring_task now events task prefs
          = .scheduledMany
              ((generate_occurrence_dates now task.recurrence_pattern
                  task.occurrences).filterMap
                (schedule_occurrence events prefs task.duration_minutes
                  task.preferred_time task.title task.recurrence_pattern))) := by
  rw [schedule_recurring_task_eq]
  by_cases hnil : (generate_occurrence_dates now task.recurrence_pattern
        task.occurrences).filterMap
      (schedule_occurrence events prefs task.duration_minutes
        task.preferred_time task.title task.recurrence_pattern) = []
  · rw [List.filterMap_eq_nil_iff] at hnil
    constructor
    · rw [if_pos (by rw [List.isEmpty_iff, List.filterMap_eq_nil_iff]; exact hnil)]
      simp only [true_iff]
      exact hnil
    · intro ⟨d, hd, hne⟩
      exact absurd (hnil d hd) hne
  · rw [if_neg (by rw [List.isEmpty_iff]; exact hnil)]
    constructor
    · constructor
      · intro h
        exact absurd h (by simp)
      · intro hall
        exact absurd (List.filterMap_eq_nil_iff.mpr hall) hnil
    · intro _
      rfl

/-- C10: a recurring task is scheduled identically whatever its `priority`
field — `_schedule_recurring_task` never reads it and hands
`find_best_time_slot` the literal `"medium"` — and with priority `"medium"`
and no preference match the selector returns the middle-index slot
`suitable[len(suitable) // 2]` of the suitability-filtered list. -/
theorem recurring_priority_ignored (now : Nat) (events : List CalendarEvent)
    (task : TaskData) (prefs : Preferences) (priority : String) :
    schedule_recurring_task now events { task with priority := priority } prefs
        = schedule_recurring_task now events task prefs
    ∧ ∀ slots duration_minutes,
        find_best_time_slot slots duration_minutes none "medium"
          = (suitable_filter slots duration_minutes)[(suitable_filter slots
              duration_minutes).length / 2]? := by
  constructor
  · rfl
  · intro slots duration_minutes
    by_cases hemp : (suitable_filter slots duration_minutes).isEmpty
    · unfold find_best_time_slot
      rw [if_pos hemp]
      rw [List.isEmpty_iff] at hemp
      rw [hemp]
      simp
    · unfold find_best_time_slot
      rw [if_neg hemp]
      rfl

/-- C1 (code bug exhibit): with an existing event occupying exactly
10:00-11:00 of epoch Monday and a task carrying that same exact interval
(`preferred_time` and `deadline` both ISO), the Conflict Detector contract
reports the overlap, yet `_schedule_single_task` — whatever the existing
events are — performs no conflict check at all and creates the event
unconditionally, returning the plain success dict (which carries no
`has_conflict`/`conflicts` keys for chat.py's conflict branch to read). -/
theorem exact_time_path_writes_despite_conflict :
    find_conflicts 600 660
        [CalendarEvent.mk "e1" "Existing Meeting" 600 660 ""] ≠ []
    ∧ ∀ events : List CalendarEvent,
        schedule_single_task 0 events
          { title := "Sync", preferred_time := some (.iso 600),
            deadline := some (.iso 660) }
          (Preferences.mk 540 1020 (some 720) (some 780) "UTC")
        = .scheduled (CreatedEvent.mk "Sync" 600 660
            "Priority: medium\nScheduled by CalBot") :=
  ⟨by decide, fun _ => rfl⟩

end CalBot
